import Mathlib

/-!
Verification of the real-time collaboration hub of the Unicode repository
(backend/index.js, custom WSSharedDoc server).

The JavaScript source is shallowly embedded: the mutable per-room state of a
WSSharedDoc instance becomes an explicit structure, JS Maps become association
lists, asynchronous completion of the persisted-state load becomes an explicit
function applied at the await point, and the fallible external calls
(MongoDB lookups, JWT verification, websocket send) become function or
datatype parameters recording success or failure.
-/

namespace Unicode

/-- Association-list lookup, modelling JS Map.get. -/
def lookupKey {α β : Type} [BEq α] (m : List (α × β)) (k : α) : Option β :=
  match m with
  | [] => none
  | e :: rest => if e.fst == k then some e.snd else lookupKey rest k

/-- Association-list deletion, modelling JS Map.delete. -/
def eraseKey {α β : Type} [BEq α] (m : List (α × β)) (k : α) : List (α × β) :=
  m.filter (fun e => !(e.fst == k))

/-- Key membership, modelling JS Map.has. -/
def hasKey {α β : Type} [BEq α] (m : List (α × β)) (k : α) : Bool :=
  m.any (fun e => e.fst == k)

/-- Association-list insertion/overwrite, modelling JS Map.set. -/
def setKey {α β : Type} [BEq α] (m : List (α × β)) (k : α) (v : β) : List (α × β) :=
  (k, v) :: eraseKey m k

/-- Number of entries stored under a key. -/
def countKey {α β : Type} [BEq α] (m : List (α × β)) (k : α) : Nat :=
  (m.filter (fun e => e.fst == k)).length

theorem lookupKey_setKey_self {α β : Type} [BEq α] [LawfulBEq α]
    (m : List (α × β)) (k : α) (v : β) :
    lookupKey (setKey m k v) k = some v := by
  simp [setKey, lookupKey]

theorem hasKey_eraseKey {α β : Type} [BEq α] [LawfulBEq α]
    (m : List (α × β)) (k : α) :
    hasKey (eraseKey m k) k = false := by
  simp only [hasKey, eraseKey, List.any_eq_false]
  intro e he
  have hp := List.of_mem_filter he
  simpa using hp

theorem eraseKey_of_hasKey_false {α β : Type} [BEq α] [LawfulBEq α]
    (m : List (α × β)) (k : α) (h : hasKey m k = false) :
    eraseKey m k = m := by
  rw [eraseKey, List.filter_eq_self]
  intro e he
  simp only [hasKey, List.any_eq_false] at h
  simpa using h e he

/-- WebSocket readyState values (ws library). -/
inductive ReadyState where
  | connecting : ReadyState
  | opened : ReadyState
  | closing : ReadyState
  | closed : ReadyState
deriving DecidableEq, Repr

/-- One awareness-removal broadcast message: recipient connection and the
awareness clientIDs whose removal it announces. -/
structure MsgSend where
  dest : Nat
  removedIds : List Nat
deriving DecidableEq, Repr

/-- State of one WSSharedDoc instance (backend/index.js, class WSSharedDoc).
`content` abstracts the Yjs document as the list of update blobs applied so
far; `awStates` is the set of awareness clientIDs with a live entry;
`conns` maps each registered websocket (by id) to the clientIDs it controls;
`ready` tracks each websocket channel's readyState; `sent` logs
awareness-removal broadcasts performed by the awareness update handler. -/
structure WSDoc where
  name : String
  content : List (List Nat)
  awStates : List Nat
  conns : List (Nat × List Nat)
  ready : List (Nat × ReadyState)
  sent : List MsgSend
  isLoaded : Bool
deriving DecidableEq, Repr

/-- A freshly constructed WSSharedDoc: empty document, no awareness entries,
no connections, load not yet finished. -/
def freshDoc (name : String) : WSDoc :=
  { name := name, content := [], awStates := [], conns := [], ready := [],
    sent := [], isLoaded := false }

/-- readyState of a channel, defaulting to opened for untracked channels. -/
def readyOf (d : WSDoc) (c : Nat) : ReadyState :=
  (lookupKey d.ready c).getD ReadyState.opened

/-- awarenessProtocol.removeAwarenessStates with origin 'disconnect', as seen
through _awarenessUpdateHandler: the given clientIDs lose their entries and
the removal is broadcast to every registered connection (the origin string
'disconnect' is not a connection, so nobody is skipped). -/
def removeAwarenessStates (d : WSDoc) (ids : List Nat) : WSDoc :=
  { d with awStates := d.awStates.filter (fun i => !(ids.contains i)),
           sent := d.sent ++ d.conns.map (fun e => { dest := e.fst, removedIds := ids }) }

/-- conn.close(...) guarded as in removeConnection: only when the channel is
neither CLOSED nor CLOSING. -/
def closeChannel (d : WSDoc) (c : Nat) : WSDoc :=
  match readyOf d c with
  | ReadyState.closed => d
  | ReadyState.closing => d
  | _ => { d with ready := setKey d.ready c ReadyState.closing }

/-- WSSharedDoc.removeConnection: if the connection is registered, unregister
it and — when it controls awareness clientIDs — remove those awareness states
(which broadcasts the removal to the remaining connections); in every case
close the underlying channel if it is not already closed or closing. -/
def removeConnection (d : WSDoc) (c : Nat) : WSDoc :=
  let d1 :=
    if hasKey d.conns c then
      let controlled := (lookupKey d.conns c).getD []
      let d2 := { d with conns := eraseKey d.conns c }
      if controlled.isEmpty then d2 else removeAwarenessStates d2 controlled
    else d
  closeChannel d1 c

/-- A project document as read by checkUserPermission: only the users array
is selected. -/
structure Project where
  users : List String
deriving DecidableEq, Repr

/-- Outcome of a Mongoose findById lookup: a thrown database error, no
matching document, or the found project. -/
inductive DbLookup where
  | dberr : DbLookup
  | missing : DbLookup
  | found : Project → DbLookup
deriving DecidableEq, Repr

/-- checkUserPermission (backend/index.js): reject malformed ObjectIds, then
look the project up; deny when the project is missing or the lookup throws,
grant exactly when the userId occurs in the project's users array. -/
def checkUserPermission (isValidObjectId : String → Bool)
    (findById : String → DbLookup) (userId projectObjectId : String) : Bool :=
  if !(isValidObjectId userId) || !(isValidObjectId projectObjectId) then
    false
  else
    match findById projectObjectId with
    | DbLookup.dberr => false
    | DbLookup.missing => false
    | DbLookup.found p =>
        if p.users.any (fun memberId => memberId == userId) then true else false

theorem conns_removeAwarenessStates (d : WSDoc) (ids : List Nat) :
    (removeAwarenessStates d ids).conns = d.conns := rfl

theorem ready_removeAwarenessStates (d : WSDoc) (ids : List Nat) :
    (removeAwarenessStates d ids).ready = d.ready := rfl

theorem conns_closeChannel (d : WSDoc) (c : Nat) :
    (closeChannel d c).conns = d.conns := by
  unfold closeChannel
  cases readyOf d c <;> rfl

theorem readyOf_closeChannel (d : WSDoc) (c : Nat) :
    readyOf (closeChannel d c) c = ReadyState.closing ∨
    readyOf (closeChannel d c) c = ReadyState.closed := by
  unfold closeChannel
  cases h : readyOf d c
  · left
    simp [readyOf, lookupKey_setKey_self]
  · left
    simp [readyOf, lookupKey_setKey_self]
  · left
    exact h
  · right
    exact h

theorem closeChannel_of_closing_or_closed (d : WSDoc) (c : Nat)
    (h : readyOf d c = ReadyState.closing ∨ readyOf d c = ReadyState.closed) :
    closeChannel d c = d := by
  unfold closeChannel
  rcases h with h | h <;> rw [h]

theorem conns_removeConnection (d : WSDoc) (c : Nat) :
    (removeConnection d c).conns =
      if hasKey d.conns c then eraseKey d.conns c else d.conns := by
  unfold removeConnection
  rw [conns_closeChannel]
  cases h : hasKey d.conns c
  · simp [h]
  · simp only [h, if_true]
    split
    · rfl
    · rfl

theorem readyOf_removeConnection (d : WSDoc) (c : Nat) :
    readyOf (removeConnection d c) c = ReadyState.closing ∨
    readyOf (removeConnection d c) c = ReadyState.closed := by
  unfold removeConnection
  exact readyOf_closeChannel _ c

theorem removeConnection_of_hasKey_false (d : WSDoc) (c : Nat)
    (h : hasKey d.conns c = false) :
    removeConnection d c = closeChannel d c := by
  unfold removeConnection
  rw [h]
  simp

/-- C7: WSSharedDoc.removeConnection is idempotent — after a first call has
unregistered the connection, retracted its awareness entries, broadcast the
retraction and closed the channel, a second call for the same connection
finds it untracked and the channel already closing, and leaves the room
state (connection set, awareness state, broadcast log, channel states)
entirely unchanged. -/
theorem removeConnection_idempotent (d : WSDoc) (c : Nat) :
    removeConnection (removeConnection d c) c = removeConnection d c := by
  have hconns : hasKey (removeConnection d c).conns c = false := by
    rw [conns_removeConnection]
    cases h : hasKey d.conns c
    · simp [h]
    · simp [h, hasKey_eraseKey]
  rw [removeConnection_of_hasKey_false _ c hconns]
  exact closeChannel_of_closing_or_closed _ c (readyOf_removeConnection d c)

/-- Process-wide state of the document manager: every live WSSharedDoc
object (by allocation id), the module-level docs Map (room name → cached
instance), the debouncedSave timer Map, and the allocation counter. -/
structure SystemState where
  instances : List (Nat × WSDoc)
  registry : List (String × Nat)
  timers : List (String × Nat)
  nextInst : Nat
deriving DecidableEq, Repr

/-- Closing every connection of a doc (conn.close(1012) loop in the debug
getYDoc before destroying a cached instance). -/
def closeAllConns (d : WSDoc) : WSDoc :=
  d.conns.foldl (fun acc e => closeChannel acc e.fst) d

/-- getYDoc as in the source (the TEMPORARY DEBUGGING VERSION that the file
ships): if an instance is cached in the docs Map it is torn down (its
connections closed, the registry and timer entries deleted), then a brand-new
WSSharedDoc is constructed and returned WITHOUT being cached — the
docs.set call is commented out. -/
def getYDoc (s : SystemState) (docname : String) : Nat × SystemState :=
  let s1 :=
    match lookupKey s.registry docname with
    | some oldId =>
        { s with
          instances :=
            match lookupKey s.instances oldId with
            | some old => setKey s.instances oldId (closeAllConns old)
            | none => s.instances,
          registry := eraseKey s.registry docname,
          timers := eraseKey s.timers docname }
    | none => s
  (s1.nextInst,
   { s1 with instances := (s1.nextInst, freshDoc docname) :: s1.instances,
             nextInst := s1.nextInst + 1 })

/-- The WSSharedDoc object a given allocation id refers to. -/
def instOf (s : SystemState) (i : Nat) : WSDoc :=
  (lookupKey s.instances i).getD (freshDoc "")

/-- The per-connection close listener (wss connection handler): it calls
getYDoc again for the room and runs removeConnection only when the returned
instance still tracks the websocket, otherwise it merely logs a warning. -/
def closeListener (s : SystemState) (roomName : String) (ws : Nat) : SystemState :=
  let r := getYDoc s roomName
  let d := instOf r.snd r.fst
  if hasKey d.conns ws then
    { r.snd with instances := setKey r.snd.instances r.fst (removeConnection d ws) }
  else
    r.snd

/-- The process state at startup: no instances, empty docs Map, no timers. -/
def emptySystem : SystemState :=
  { instances := [], registry := [], timers := [], nextInst := 0 }

/-- C1: evaluated at the failing input (two successive channel opens for the
same room "r" on a fresh process), the shipped getYDoc returns two DIFFERENT
WSSharedDoc instances and never registers either in the docs Map — the
debug version forces a new instance per call, so the claimed one-Room-per-id
invariant does not hold. -/
theorem getYDoc_forces_new_instance_per_call :
    (getYDoc emptySystem "r").fst ≠ (getYDoc (getYDoc emptySystem "r").snd "r").fst ∧
    (getYDoc (getYDoc emptySystem "r").snd "r").snd.registry = [] ∧
    (getYDoc (getYDoc emptySystem "r").snd "r").snd.instances.length = 2 := by
  decide

/-- A room doc tracking connection 1 (which controls awareness clientID 7)
and connection 2 — the live instance serving room "r". Because the debug
getYDoc never caches, the docs Map is empty in every reachable state. -/
def liveRoomDoc : WSDoc :=
  { name := "r", content := [], awStates := [7],
    conns := [(1, [7]), (2, [])],
    ready := [(1, ReadyState.opened), (2, ReadyState.opened)],
    sent := [], isLoaded := true }

/-- Reachable process state with the live instance 0 serving room "r". -/
def liveSystem : SystemState :=
  { instances := [(0, liveRoomDoc)], registry := [], timers := [], nextInst := 1 }

/-- C3: evaluated at the failing input (connection 1, owner of awareness
entry 7, closes its channel), the close listener fetches a brand-new
uncached instance from the debug getYDoc, finds the websocket untracked
there, and never calls removeConnection on the live instance: the departed
connection's awareness entry 7 survives in the live instance's presence
state, the connection stays registered, and no removal is broadcast to the
remaining connection 2. -/
theorem closeListener_leaves_residual_presence :
    instOf (closeListener liveSystem "r" 1) 0 = liveRoomDoc ∧
    (instOf (closeListener liveSystem "r" 1) 0).awStates = [7] ∧
    hasKey (instOf (closeListener liveSystem "r" 1) 0).conns 1 = true ∧
    (instOf (closeListener liveSystem "r" 1) 0).sent = [] := by
  decide

/-- The fixed debounce delay of saveYDoc (5 seconds, in milliseconds). -/
def debounceTimeout : Nat := 5000

/-- Debounce state for one room: the deadline of the pending save timer, if
one is armed, and the number of persistence writes performed so far. -/
structure SaveState where
  pending : Option Nat
  writes : Nat
deriving DecidableEq, Repr

/-- Passage of time up to instant t: an armed timer whose deadline has been
reached fires, performing one persistence write and deleting its map entry. -/
def fireBefore (s : SaveState) (t : Nat) : SaveState :=
  match s.pending with
  | some deadline =>
      if deadline ≤ t then { pending := none, writes := s.writes + 1 } else s
  | none => s

/-- saveYDoc observed at the instant t of a document update: the timer that
was due before t has already fired; any still-pending timer is cleared
(clearTimeout) and a single new timer is armed for t + debounceTimeout. -/
def saveYDocAt (s : SaveState) (t : Nat) : SaveState :=
  { fireBefore s t with pending := some (t + debounceTimeout) }

/-- Debounce state produced by a sequence of document updates at the given
instants, starting with no timer armed and no writes performed. -/
def runEdits (ts : List Nat) : SaveState :=
  ts.foldl saveYDocAt { pending := none, writes := 0 }

/-- Total number of persistence writes once all edits are done and the last
armed timer, if any, has fired. -/
def totalWrites (ts : List Nat) : Nat :=
  (runEdits ts).writes + (if (runEdits ts).pending.isSome then 1 else 0)

/-- Consecutive edits less than the debounce interval apart. -/
def gapLT (a b : Nat) : Prop := a < b ∧ b < a + debounceTimeout

/-- Consecutive edits more than the debounce interval apart. -/
def gapGT (a b : Nat) : Prop := a + debounceTimeout < b

instance : DecidableRel gapLT := fun a b =>
  inferInstanceAs (Decidable (a < b ∧ b < a + debounceTimeout))

instance : DecidableRel gapGT := fun a b =>
  inferInstanceAs (Decidable (a + debounceTimeout < b))

/-- The debouncedSave bookkeeping of saveYDoc: any existing timer entry for
the room is cleared, then the single new timer is stored under the room key. -/
def armDebounceTimer (m : List (String × Nat)) (roomName : String)
    (deadline : Nat) : List (String × Nat) :=
  setKey m roomName deadline

theorem coalesce_aux (ts : List Nat) (prev w : Nat)
    (h : List.Chain gapLT prev ts) :
    ∃ last, ts.foldl saveYDocAt
        { pending := some (prev + debounceTimeout), writes := w } =
      { pending := some (last + debounceTimeout), writes := w } := by
  induction ts generalizing prev with
  | nil => exact ⟨prev, rfl⟩
  | cons t rest ih =>
      cases h with
      | cons h1 h2 =>
          have hstep : saveYDocAt
              { pending := some (prev + debounceTimeout), writes := w } t =
              { pending := some (t + debounceTimeout), writes := w } := by
            simp [saveYDocAt, fireBefore, Nat.not_le.mpr h1.2]
          rw [List.foldl_cons, hstep]
          exact ih t h2

theorem spaced_aux (ts : List Nat) (prev w : Nat)
    (h : List.Chain gapGT prev ts) :
    ∃ last, ts.foldl saveYDocAt
        { pending := some (prev + debounceTimeout), writes := w } =
      { pending := some (last + debounceTimeout), writes := w + ts.length } := by
  induction ts generalizing prev w with
  | nil => exact ⟨prev, rfl⟩
  | cons t rest ih =>
      cases h with
      | cons h1 h2 =>
          have hstep : saveYDocAt
              { pending := some (prev + debounceTimeout), writes := w } t =
              { pending := some (t + debounceTimeout), writes := w + 1 } := by
            simp [saveYDocAt, fireBefore, Nat.le_of_lt h1]
          rw [List.foldl_cons, hstep]
          rcases ih t (w + 1) h2 with ⟨last, hl⟩
          refine ⟨last, ?_⟩
          rw [hl]
          simp only [List.length_cons]
          congr 1
          omega

theorem countKey_setKey_self {α β : Type} [BEq α] [LawfulBEq α]
    (m : List (α × β)) (k : α) (v : β) :
    countKey (setKey m k v) k = 1 := by
  have hnil : (eraseKey m k).filter (fun e => e.fst == k) = [] := by
    rw [List.filter_eq_nil_iff]
    intro e he
    have hp := List.of_mem_filter he
    simpa using hp
  simp [countKey, setKey, hnil]

theorem countKey_setKey_ne {α β : Type} [BEq α] [LawfulBEq α]
    (m : List (α × β)) (k k2 : α) (v : β) (hne : k2 ≠ k) :
    countKey (setKey m k v) k2 = countKey m k2 := by
  simp only [countKey, setKey, eraseKey, List.filter_cons]
  have hk : (k == k2) = false := by
    simp [beq_iff_eq]
    intro hcontra
    exact hne hcontra.symm
  simp only [hk, cond_false, List.filter_filter]
  congr 1
  apply List.filter_congr
  intro e he
  cases heq : (e.fst == k2)
  · simp [heq]
  · have : e.fst = k2 := by simpa using heq
    simp [heq, this, beq_iff_eq, hne]

/-- C5: document edits to a room less than the debounce interval apart
coalesce into exactly one persistence write of the room's then-current
state, edits more than the interval apart each produce their own write, and
saveYDoc keeps at most one pending debounce timer per room (the armed room
ends with exactly one entry, other rooms' entries are untouched). -/
theorem debounce_coalescing (ts : List Nat) (m : List (String × Nat))
    (r : String) (deadline : Nat) :
    (ts ≠ [] → List.Chain' gapLT ts → totalWrites ts = 1) ∧
    (List.Chain' gapGT ts → totalWrites ts = ts.length) ∧
    countKey (armDebounceTimer m r deadline) r = 1 ∧
    (∀ r2, r2 ≠ r → countKey (armDebounceTimer m r deadline) r2 = countKey m r2) := by
  refine ⟨?_, ?_, ?_, ?_⟩
  · intro hne hchain
    cases ts with
    | nil => exact absurd rfl hne
    | cons t0 rest =>
        have h0 : saveYDocAt { pending := none, writes := 0 } t0 =
            { pending := some (t0 + debounceTimeout), writes := 0 } := rfl
        unfold totalWrites runEdits
        rw [List.foldl_cons, h0]
        rcases coalesce_aux rest t0 0 hchain with ⟨last, hl⟩
        rw [hl]
        rfl
  · intro hchain
    cases ts with
    | nil => rfl
    | cons t0 rest =>
        have h0 : saveYDocAt { pending := none, writes := 0 } t0 =
            { pending := some (t0 + debounceTimeout), writes := 0 } := rfl
        unfold totalWrites runEdits
        rw [List.foldl_cons, h0]
        rcases spaced_aux rest t0 0 hchain with ⟨last, hl⟩
        rw [hl]
        simp [List.length_cons]
  · exact countKey_setKey_self m r deadline
  · intro r2 hne
    exact countKey_setKey_ne m r r2 deadline hne

/-- C5 witness: three edits 1 second apart coalesce into one write; three
edits 6 seconds apart produce three writes; arming the timer for room "r"
leaves exactly one timer entry for "r" and the entry of room "q" intact. -/
theorem debounce_coalescing_witness :
    totalWrites [0, 1000, 2000] = 1 ∧
    totalWrites [0, 6000, 12000] = 3 ∧
    countKey (armDebounceTimer [("q", 77)] "r" 5000) "r" = 1 ∧
    countKey (armDebounceTimer [("q", 77)] "r" 5000) "q" = countKey [("q", 77)] "q" := by
  refine ⟨?_, ?_, ?_, ?_⟩
  · exact (debounce_coalescing [0, 1000, 2000] [] "r" 0).1 (by decide)
      (by norm_num [List.chain'_cons, List.chain'_singleton, gapLT, debounceTimeout])
  · exact (debounce_coalescing [0, 6000, 12000] [] "r" 0).2.1
      (by norm_num [List.chain'_cons, List.chain'_singleton, gapGT, debounceTimeout])
  · exact (debounce_coalescing [0] [("q", 77)] "r" 5000).2.2.1
  · exact (debounce_coalescing [0] [("q", 77)] "r" 5000).2.2.2 "q" (by decide)

/-- C9: checkUserPermission grants access exactly when the project lookup
finds the project and the userId occurs in its users array; in every other
case — malformed userId or projectObjectId, project not found, or a thrown
database error — it returns false rather than throwing, i.e. the membership
check fails closed. The hypothesis states that the database only stores
well-formed ObjectIds (project keys and member ids), which is what the
Mongoose schema guarantees. -/
theorem checkUserPermission_iff_member (isValidObjectId : String → Bool)
    (findById : String → DbLookup) (userId projectObjectId : String)
    (hdb : ∀ p, findById projectObjectId = DbLookup.found p →
      isValidObjectId projectObjectId = true ∧
      ∀ m2 ∈ p.users, isValidObjectId m2 = true) :
    checkUserPermission isValidObjectId findById userId projectObjectId = true ↔
      ∃ p, findById projectObjectId = DbLookup.found p ∧ userId ∈ p.users := by
  unfold checkUserPermission
  constructor
  · intro h
    by_cases hv : (!(isValidObjectId userId) || !(isValidObjectId projectObjectId)) = true
    · rw [if_pos hv] at h
      exact absurd h (by simp)
    · rw [if_neg hv] at h
      cases hf : findById projectObjectId with
      | dberr =>
          rw [hf] at h
          exact absurd h (by simp)
      | missing =>
          rw [hf] at h
          exact absurd h (by simp)
      | found p =>
          rw [hf] at h
          have hany : (p.users.any fun memberId => memberId == userId) = true := by
            by_contra hm
            simp only [Bool.not_eq_true] at hm
            simp [hm] at h
          rcases List.any_eq_true.mp hany with ⟨m2, hmem, hbeq⟩
          have hm2 : m2 = userId := by simpa using hbeq
          exact ⟨p, rfl, hm2 ▸ hmem⟩
  · rintro ⟨p, hf, hmem⟩
    rcases hdb p hf with ⟨hvp, hvu⟩
    have hvuser : isValidObjectId userId = true := hvu userId hmem
    have hany : (p.users.any fun memberId => memberId == userId) = true :=
      List.any_eq_true.mpr ⟨userId, hmem, by simp⟩
    rw [if_neg (by simp [hvuser, hvp]), hf]
    simp [hany]

/-- C9 witness: with a database holding project p1 whose users array is
exactly ["u1"], user u1 is granted access. -/
theorem checkUserPermission_iff_member_witness :
    checkUserPermission (fun _ => true)
      (fun _ => DbLookup.found { users := ["u1"] }) "u1" "p1" = true :=
  (checkUserPermission_iff_member (fun _ => true)
      (fun _ => DbLookup.found { users := ["u1"] }) "u1" "p1"
      (fun _ _ => ⟨rfl, fun _ _ => rfl⟩)).mpr
    ⟨{ users := ["u1"] }, rfl, by simp⟩

/-- Result of one broadcast fan-out: the connections the buffer was
delivered to, and the connections whose throwing send triggered
removeConnection, in loop order. -/
structure FanoutResult where
  delivered : List Nat
  removed : List Nat
deriving DecidableEq, Repr

/-- Body of the conns.forEach loop shared verbatim by _updateHandler and
_awarenessUpdateHandler: skip the origin, try to send, and on a throwing
send record the removeConnection for that connection and continue. -/
def fanoutStep (origin : Option Nat) (sendOk : Nat → Bool)
    (acc : FanoutResult) (c : Nat) : FanoutResult :=
  if some c == origin then acc
  else if sendOk c then { acc with delivered := acc.delivered ++ [c] }
  else { acc with removed := acc.removed ++ [c] }

/-- The conns.forEach loop of WSSharedDoc._updateHandler, broadcasting a
sync-tagged document update buffer. -/
def updateHandlerFanout (conns : List Nat) (origin : Option Nat)
    (sendOk : Nat → Bool) : FanoutResult :=
  conns.foldl (fanoutStep origin sendOk) { delivered := [], removed := [] }

/-- The conns.forEach loop of WSSharedDoc._awarenessUpdateHandler,
broadcasting an awareness-tagged presence diff buffer. -/
def awarenessHandlerFanout (conns : List Nat) (connOrigin : Option Nat)
    (sendOk : Nat → Bool) : FanoutResult :=
  conns.foldl (fanoutStep connOrigin sendOk) { delivered := [], removed := [] }

theorem fanout_delivered_mono (conns : List Nat) (origin : Option Nat)
    (sendOk : Nat → Bool) (acc : FanoutResult) (c : Nat)
    (h : c ∈ acc.delivered) :
    c ∈ (conns.foldl (fanoutStep origin sendOk) acc).delivered := by
  induction conns generalizing acc with
  | nil => exact h
  | cons x rest ih =>
      rw [List.foldl_cons]
      apply ih
      unfold fanoutStep
      split
      · exact h
      · split
        · simp [h]
        · exact h

theorem fanout_removed_mono (conns : List Nat) (origin : Option Nat)
    (sendOk : Nat → Bool) (acc : FanoutResult) (c : Nat)
    (h : c ∈ acc.removed) :
    c ∈ (conns.foldl (fanoutStep origin sendOk) acc).removed := by
  induction conns generalizing acc with
  | nil => exact h
  | cons x rest ih =>
      rw [List.foldl_cons]
      apply ih
      unfold fanoutStep
      split
      · exact h
      · split
        · exact h
        · simp [h]

theorem fanout_mem (conns : List Nat) (origin : Option Nat)
    (sendOk : Nat → Bool) (acc : FanoutResult) (c : Nat)
    (hmem : c ∈ conns) (hor : some c ≠ origin) :
    (sendOk c = true →
      c ∈ (conns.foldl (fanoutStep origin sendOk) acc).delivered) ∧
    (sendOk c = false →
      c ∈ (conns.foldl (fanoutStep origin sendOk) acc).removed) := by
  induction conns generalizing acc with
  | nil => cases hmem
  | cons x rest ih =>
      rw [List.mem_cons] at hmem
      rcases hmem with hx | hrest
      · subst hx
        rw [List.foldl_cons]
        constructor
        · intro hs
          apply fanout_delivered_mono
          unfold fanoutStep
          rw [if_neg (by simpa using hor), if_pos hs]
          simp
        · intro hs
          apply fanout_removed_mono
          unfold fanoutStep
          rw [if_neg (by simpa using hor), if_neg (by simp [hs])]
          simp
      · rw [List.foldl_cons]
        exact ih _ hrest

theorem fanout_origin_skipped (conns : List Nat) (o : Nat)
    (sendOk : Nat → Bool) (acc : FanoutResult)
    (hd : o ∉ acc.delivered) (hr : o ∉ acc.removed) :
    o ∉ (conns.foldl (fanoutStep (some o) sendOk) acc).delivered ∧
    o ∉ (conns.foldl (fanoutStep (some o) sendOk) acc).removed := by
  induction conns generalizing acc with
  | nil => exact ⟨hd, hr⟩
  | cons x rest ih =>
      rw [List.foldl_cons]
      by_cases hx : x = o
      · subst hx
        have hskip : fanoutStep (some x) sendOk acc x = acc := by
          unfold fanoutStep
          rw [if_pos (by simp)]
        rw [hskip]
        exact ih _ hd hr
      · apply ih
        · unfold fanoutStep
          split
          · exact hd
          · split
            · simp [hd, hx]
              intro hcontra
              exact hx hcontra.symm
            · exact hd
        · unfold fanoutStep
          split
          · exact hr
          · split
            · exact hr
            · simp [hr, hx]
              intro hcontra
              exact hx hcontra.symm

/-- C6: both broadcast handlers deliver the buffer to every registered
connection other than the origin whose send succeeds; a connection whose
send throws gets removeConnection, and its failure never prevents delivery
to the other connections; the origin itself is neither sent to nor removed. -/
theorem broadcast_fanout_isolates_send_failures
    (conns : List Nat) (origin : Option Nat) (sendOk : Nat → Bool) (c : Nat)
    (hmem : c ∈ conns) (hor : some c ≠ origin) :
    (sendOk c = true →
      c ∈ (updateHandlerFanout conns origin sendOk).delivered ∧
      c ∈ (awarenessHandlerFanout conns origin sendOk).delivered) ∧
    (sendOk c = false →
      c ∈ (updateHandlerFanout conns origin sendOk).removed ∧
      c ∈ (awarenessHandlerFanout conns origin sendOk).removed) ∧
    (∀ o, origin = some o →
      o ∉ (updateHandlerFanout conns origin sendOk).delivered ∧
      o ∉ (updateHandlerFanout conns origin sendOk).removed ∧
      o ∉ (awarenessHandlerFanout conns origin sendOk).delivered ∧
      o ∉ (awarenessHandlerFanout conns origin sendOk).removed) := by
  have hm := fanout_mem conns origin sendOk { delivered := [], removed := [] } c hmem hor
  refine ⟨fun hs => ⟨hm.1 hs, hm.1 hs⟩, fun hs => ⟨hm.2 hs, hm.2 hs⟩, ?_⟩
  intro o horig
  subst horig
  have hsk := fanout_origin_skipped conns o sendOk
    { delivered := [], removed := [] } (by simp) (by simp)
  exact ⟨hsk.1, hsk.2, hsk.1, hsk.2⟩

/-- C6 witness: with connections 1, 2, 3, origin 3 and connection 1's send
throwing, connection 2 still receives the document-update broadcast and the
presence broadcast, while connection 1 is removed by both. -/
theorem broadcast_fanout_isolates_send_failures_witness :
    2 ∈ (updateHandlerFanout [1, 2, 3] (some 3) (fun c => !(c == 1))).delivered ∧
    1 ∈ (awarenessHandlerFanout [1, 2, 3] (some 3) (fun c => !(c == 1))).removed := by
  refine ⟨?_, ?_⟩
  · exact ((broadcast_fanout_isolates_send_failures [1, 2, 3] (some 3)
      (fun c => !(c == 1)) 2 (by decide) (by decide)).1 (by decide)).1
  · exact ((broadcast_fanout_isolates_send_failures [1, 2, 3] (some 3)
      (fun c => !(c == 1)) 1 (by decide) (by decide)).2.1 (by decide)).2

/-- Outcome of the YjsDocModel.findOne query in loadPersistedData: a thrown
database error, no stored record, or the stored binary blob. -/
inductive PersistLookup where
  | dberr : PersistLookup
  | noData : PersistLookup
  | data : List Nat → PersistLookup
deriving DecidableEq, Repr

/-- WSSharedDoc.loadPersistedData: query the Durable Store; when a blob is
found attempt Y.applyUpdate (which may throw on a corrupt blob — applyOk
records whether it succeeds); both the query error and the apply error are
caught and only logged, and the finally block always marks the document
loaded. -/
def loadPersistedData (d : WSDoc) (res : PersistLookup)
    (applyOk : List Nat → Bool) : WSDoc :=
  let d1 :=
    match res with
    | PersistLookup.dberr => d
    | PersistLookup.noData => d
    | PersistLookup.data b =>
        if applyOk b then { d with content := d.content ++ [b] } else d
  { d1 with isLoaded := true }

theorem isLoaded_loadPersistedData (d : WSDoc) (res : PersistLookup)
    (applyOk : List Nat → Bool) :
    (loadPersistedData d res applyOk).isLoaded = true := by
  unfold loadPersistedData
  cases res
  · rfl
  · rfl
  · split <;> rfl

theorem awStates_loadPersistedData (d : WSDoc) (res : PersistLookup)
    (applyOk : List Nat → Bool) :
    (loadPersistedData d res applyOk).awStates = d.awStates := by
  unfold loadPersistedData
  cases res with
  | dberr => rfl
  | noData => rfl
  | data b => cases hap : applyOk b <;> simp [hap]

theorem conns_loadPersistedData (d : WSDoc) (res : PersistLookup)
    (applyOk : List Nat → Bool) :
    (loadPersistedData d res applyOk).conns = d.conns := by
  unfold loadPersistedData
  cases res with
  | dberr => rfl
  | noData => rfl
  | data b => cases hap : applyOk b <;> simp [hap]

theorem isLoaded_closeChannel (d : WSDoc) (c : Nat) :
    (closeChannel d c).isLoaded = d.isLoaded := by
  unfold closeChannel
  cases readyOf d c <;> rfl

theorem isLoaded_removeConnection (d : WSDoc) (c : Nat) :
    (removeConnection d c).isLoaded = d.isLoaded := by
  unfold removeConnection
  rw [isLoaded_closeChannel]
  cases h : hasKey d.conns c
  · simp [h]
  · simp only [h, if_true]
    cases hc : ((lookupKey d.conns c).getD []).isEmpty <;>
      simp [hc, removeAwarenessStates]

/-- Observable steps of addConnection, in order of occurrence. -/
inductive Ev where
  | loadCompleted : Ev
  | registered : Nat → Ev
  | sentSync1 : Nat → Ev
  | sentPresence : Nat → List Nat → Ev
  | removedConn : Nat → Ev
deriving DecidableEq, Repr

/-- WSSharedDoc.addConnection: first awaits this.loadPromise — the await
returns only once loadPersistedData has run to completion, modelled by
applying it here when the doc is not yet loaded — then registers the
connection in conns, sends the SyncStep1 state-summary message, and sends
the current awareness snapshot when it is non-empty. The Bool parameters
record whether encodeStateVector, writeSyncStep1 and the SyncStep1
conn.send succeed; each of those failures is caught and answered with
removeConnection. -/
def addConnection (d : WSDoc) (res : PersistLookup) (applyOk : List Nat → Bool)
    (conn : Nat) (svOk sync1Ok sendOk : Bool) : WSDoc × List Ev :=
  let d0 := if d.isLoaded then d else loadPersistedData d res applyOk
  let d1 := { d0 with conns := setKey d0.conns conn [] }
  let evs := [Ev.loadCompleted, Ev.registered conn]
  if !svOk then
    (removeConnection d1 conn, evs ++ [Ev.removedConn conn])
  else if !sync1Ok then
    (removeConnection d1 conn, evs ++ [Ev.removedConn conn])
  else if !sendOk then
    (removeConnection d1 conn, evs ++ [Ev.removedConn conn])
  else if d1.awStates.isEmpty then
    (d1, evs ++ [Ev.sentSync1 conn])
  else
    (d1, evs ++ [Ev.sentSync1 conn, Ev.sentPresence conn d1.awStates])

theorem isLoaded_after_await (d : WSDoc) (res : PersistLookup)
    (applyOk : List Nat → Bool) :
    (if d.isLoaded then d else loadPersistedData d res applyOk).isLoaded = true := by
  cases h : d.isLoaded
  · simp [h, isLoaded_loadPersistedData]
  · simp [h]

theorem addConnection_spec_aux (d : WSDoc)
    (res : PersistLookup) (applyOk : List Nat → Bool) (conn : Nat)
    (svOk sync1Ok sendOk : Bool) :
    (addConnection d res applyOk conn svOk sync1Ok sendOk).fst.isLoaded = true ∧
    (∃ tl, (addConnection d res applyOk conn svOk sync1Ok sendOk).snd =
      Ev.loadCompleted :: Ev.registered conn :: tl) ∧
    (svOk = true → sync1Ok = true → sendOk = true →
      (addConnection d res applyOk conn svOk sync1Ok sendOk).snd =
        Ev.loadCompleted :: Ev.registered conn :: Ev.sentSync1 conn ::
          (if d.awStates.isEmpty then []
           else [Ev.sentPresence conn d.awStates]) ∧
      hasKey (addConnection d res applyOk conn svOk sync1Ok sendOk).fst.conns
        conn = true) := by
  have haw : (if d.isLoaded then d else loadPersistedData d res applyOk).awStates
      = d.awStates := by
    cases h : d.isLoaded
    · simp [h, awStates_loadPersistedData]
    · simp [h]
  unfold addConnection
  cases hsv : svOk
  · simp [isLoaded_removeConnection, isLoaded_after_await]
  · cases hs1 : sync1Ok
    · simp [isLoaded_removeConnection, isLoaded_after_await]
    · cases hsd : sendOk
      · simp [isLoaded_removeConnection, isLoaded_after_await]
      · cases hemp : (if d.isLoaded then d else loadPersistedData d res applyOk).awStates.isEmpty
        · rw [haw] at hemp
          simp [hemp, haw, isLoaded_after_await, lookupKey_setKey_self, hasKey, setKey]
        · rw [haw] at hemp
          simp [hemp, haw, isLoaded_after_await, hasKey, setKey]

/-- C4: for every connection, addConnection first awaits completion of the
room's persisted-state load, and only afterwards registers the connection
and talks to it — in every branch the event trace starts with the load
completion followed by the registration, so no sync reply precedes the
load; when state-vector encoding, SyncStep1 encoding and the send all
succeed, the connection receives exactly the SyncStep1 state-summary
message followed by the current presence snapshot when one exists, and ends
up registered in the loaded room. -/
theorem addConnection_waits_for_load_then_syncs (d : WSDoc)
    (res : PersistLookup) (applyOk : List Nat → Bool) (conn : Nat)
    (svOk sync1Ok sendOk : Bool) :
    (addConnection d res applyOk conn svOk sync1Ok sendOk).fst.isLoaded = true ∧
    (∃ tl, (addConnection d res applyOk conn svOk sync1Ok sendOk).snd =
      Ev.loadCompleted :: Ev.registered conn :: tl) ∧
    (svOk = true → sync1Ok = true → sendOk = true →
      (addConnection d res applyOk conn svOk sync1Ok sendOk).snd =
        Ev.loadCompleted :: Ev.registered conn :: Ev.sentSync1 conn ::
          (if d.awStates.isEmpty then []
           else [Ev.sentPresence conn d.awStates]) ∧
      hasKey (addConnection d res applyOk conn svOk sync1Ok sendOk).fst.conns
        conn = true) :=
  addConnection_spec_aux d res applyOk conn svOk sync1Ok sendOk

/-- C4 witness: a fresh, not-yet-loaded room with stored blob [3] and one
awareness entry 9, connection 5 added with all sends succeeding. -/
theorem addConnection_waits_for_load_then_syncs_witness :
    (addConnection { freshDoc "r" with awStates := [9] }
        (PersistLookup.data [3]) (fun _ => true) 5 true true true).snd =
      [Ev.loadCompleted, Ev.registered 5, Ev.sentSync1 5,
       Ev.sentPresence 5 [9]] := by
  have h := (addConnection_waits_for_load_then_syncs
    { freshDoc "r" with awStates := [9] }
    (PersistLookup.data [3]) (fun _ => true) 5 true true true).2.2 rfl rfl rfl
  rw [h.1]
  rfl

/-- C8: when loading the persisted state fails — the Durable Store query
throws, or applying the stored blob to the fresh document throws — loading
still completes: the doc is marked loaded, its document content stays
empty, and a connection awaiting the load in addConnection is unblocked and
registered rather than blocked forever. -/
theorem load_failure_completes_with_empty_doc (name : String)
    (res : PersistLookup) (applyOk : List Nat → Bool) (conn : Nat)
    (hfail : res = PersistLookup.dberr ∨
      ∃ b, res = PersistLookup.data b ∧ applyOk b = false) :
    (loadPersistedData (freshDoc name) res applyOk).isLoaded = true ∧
    (loadPersistedData (freshDoc name) res applyOk).content = [] ∧
    hasKey (addConnection (freshDoc name) res applyOk conn
      true true true).fst.conns conn = true := by
  refine ⟨isLoaded_loadPersistedData _ _ _, ?_, ?_⟩
  · rcases hfail with h | ⟨b, hb, hap⟩
    · subst h
      rfl
    · subst hb
      simp [loadPersistedData, hap, freshDoc]
  · have h := (addConnection_spec_aux (freshDoc name)
      res applyOk conn true true true).2.2 rfl rfl rfl
    exact h.2

/-- C8 witness: a store whose lookup throws; the room for "r" still loads,
stays empty, and connection 4 is registered. -/
theorem load_failure_completes_with_empty_doc_witness :
    (loadPersistedData (freshDoc "r") PersistLookup.dberr (fun _ => true)).isLoaded = true ∧
    (loadPersistedData (freshDoc "r") PersistLookup.dberr (fun _ => true)).content = [] ∧
    hasKey (addConnection (freshDoc "r") PersistLookup.dberr (fun _ => true) 4
      true true true).fst.conns 4 = true :=
  load_failure_completes_with_empty_doc "r" PersistLookup.dberr (fun _ => true) 4
    (Or.inl rfl)

/-- A websocket upgrade request: the token and projectId query parameters,
when present. -/
structure UpgradeRequest where
  token : Option String
  projectId : Option String
deriving DecidableEq, Repr

/-- External authentication context of the upgrade handler: jwt.verify
(none when verification throws, otherwise the decoded payload's optional id
field), mongoose.Types.ObjectId.isValid, and the project lookup used by
checkUserPermission. -/
structure AuthEnv where
  verify : String → Option (Option String)
  isValidObjectId : String → Bool
  findById : String → DbLookup

/-- Room-touching effects observable during channel establishment. -/
inductive GateEv where
  | gotYDoc : String → GateEv
  | connectionEmitted : String → String → GateEv
deriving DecidableEq, Repr

/-- Result of the upgrade handler: socket destroyed after writing an HTTP
error response (the close reason string), or handshake completed for the
given user and room. -/
inductive UpgradeOutcome where
  | reject : String → UpgradeOutcome
  | accept : String → String → UpgradeOutcome
deriving DecidableEq, Repr

/-- Close reason written for a request missing token or projectId. -/
def reasonMissingParams : String := "HTTP/1.1 400 Bad Request"

/-- Close reason written when JWT verification fails or yields no valid
user id. -/
def reasonUnauthorized : String := "HTTP/1.1 401 Unauthorized"

/-- Close reason written for a malformed project ObjectId. -/
def reasonBadProjectId : String :=
  "HTTP/1.1 400 Bad Request - Invalid Project ID format."

/-- Close reason written when the permission check denies access (project
not found or user not a member). -/
def reasonForbidden : String := "HTTP/1.1 403 Forbidden"

/-- A query parameter is falsy in JS when absent or the empty string. -/
def isMissing (o : Option String) : Bool :=
  match o with
  | none => true
  | some s => s.isEmpty

/-- The server.on upgrade handler: reject when token or projectId is
missing; verify the JWT and reject when verification throws or the decoded
id is absent, empty or malformed; reject a malformed project ObjectId;
reject when checkUserPermission denies; only otherwise complete the
handshake. -/
def upgradeHandler (env : AuthEnv) (req : UpgradeRequest) : UpgradeOutcome :=
  let token := req.token.getD ""
  let projectObjectId := req.projectId.getD ""
  if isMissing req.token || isMissing req.projectId then
    UpgradeOutcome.reject reasonMissingParams
  else
    match env.verify token with
    | none => UpgradeOutcome.reject reasonUnauthorized
    | some decoded =>
        let userId := decoded.getD ""
        if userId.isEmpty || !(env.isValidObjectId userId) then
          UpgradeOutcome.reject reasonUnauthorized
        else if !(env.isValidObjectId projectObjectId) then
          UpgradeOutcome.reject reasonBadProjectId
        else if !(checkUserPermission env.isValidObjectId env.findById
            userId projectObjectId) then
          UpgradeOutcome.reject reasonForbidden
        else
          UpgradeOutcome.accept userId projectObjectId

/-- The complete channel-open flow: the upgrade handler runs first, and only
when it accepts does wss emit 'connection'; the connection handler is the
sole caller of getYDoc and of Room state (addConnection). A rejected
request produces no room-touching event at all. -/
def channelOpen (env : AuthEnv) (req : UpgradeRequest) :
    UpgradeOutcome × List GateEv :=
  match upgradeHandler env req with
  | UpgradeOutcome.accept userId room =>
      (UpgradeOutcome.accept userId room,
        [GateEv.connectionEmitted userId room, GateEv.gotYDoc room])
  | UpgradeOutcome.reject reason => (UpgradeOutcome.reject reason, [])

/-- C2: every channel-open request that fails authentication or
authorization is terminated before any Room interaction — its event trace
is empty, so getYDoc (Registry.getOrCreate) and Room state access never
happen — and each failure class gets its close reason: missing credentials
the 400 response, invalid token or invalid decoded user id the 401
response, malformed project id the 400 format response, nonexistent project
or non-member identity the 403 response; the four reasons are pairwise
distinct. -/
theorem upgrade_gate_rejects_before_room_access (env : AuthEnv)
    (req : UpgradeRequest) :
    (∀ reason, (channelOpen env req).fst = UpgradeOutcome.reject reason →
      (channelOpen env req).snd = []) ∧
    ((isMissing req.token || isMissing req.projectId) = true →
      upgradeHandler env req = UpgradeOutcome.reject reasonMissingParams) ∧
    ((isMissing req.token || isMissing req.projectId) = false →
      env.verify (req.token.getD "") = none →
      upgradeHandler env req = UpgradeOutcome.reject reasonUnauthorized) ∧
    (∀ u, (isMissing req.token || isMissing req.projectId) = false →
      env.verify (req.token.getD "") = some (some u) →
      u.isEmpty = false → env.isValidObjectId u = true →
      env.isValidObjectId (req.projectId.getD "") = false →
      upgradeHandler env req = UpgradeOutcome.reject reasonBadProjectId) ∧
    (∀ u, (isMissing req.token || isMissing req.projectId) = false →
      env.verify (req.token.getD "") = some (some u) →
      u.isEmpty = false → env.isValidObjectId u = true →
      env.isValidObjectId (req.projectId.getD "") = true →
      checkUserPermission env.isValidObjectId env.findById u
        (req.projectId.getD "") = false →
      upgradeHandler env req = UpgradeOutcome.reject reasonForbidden) ∧
    (reasonMissingParams ≠ reasonUnauthorized ∧
     reasonMissingParams ≠ reasonBadProjectId ∧
     reasonMissingParams ≠ reasonForbidden ∧
     reasonUnauthorized ≠ reasonBadProjectId ∧
     reasonUnauthorized ≠ reasonForbidden ∧
     reasonBadProjectId ≠ reasonForbidden) := by
  refine ⟨?_, ?_, ?_, ?_, ?_, by decide⟩
  · intro reason h
    unfold channelOpen at h ⊢
    cases hu : upgradeHandler env req with
    | accept u r =>
        rw [hu] at h
        exact absurd h (by simp)
    | reject s => rfl
  · intro hm
    simp [upgradeHandler, hm]
  · intro hm hv
    simp [upgradeHandler, hm, hv]
  · intro u hm hv hue hvu hvp
    simp [upgradeHandler, hm, hv, hue, hvu, hvp]
  · intro u hm hv hue hvu hvp hperm
    simp [upgradeHandler, hm, hv, hue, hvu, hvp, hperm]

/-- The authentication context used by the C2 witness: token verification
succeeds for user u1, every id is well-formed, but the project does not
exist in the database. -/
def witnessEnv : AuthEnv :=
  { verify := fun _ => some (some "u1"),
    isValidObjectId := fun _ => true,
    findById := fun _ => DbLookup.missing }

/-- C2 witness: a request with credentials for a nonexistent project is
rejected with the 403 reason and produces no room-touching event. -/
theorem upgrade_gate_rejects_before_room_access_witness :
    upgradeHandler witnessEnv { token := some "tok", projectId := some "p1" } =
      UpgradeOutcome.reject reasonForbidden ∧
    (channelOpen witnessEnv { token := some "tok", projectId := some "p1" }).snd = [] := by
  have h := upgrade_gate_rejects_before_room_access witnessEnv
    { token := some "tok", projectId := some "p1" }
  have hrej := h.2.2.2.2.1 "u1" rfl rfl rfl rfl rfl rfl
  refine ⟨hrej, h.1 reasonForbidden ?_⟩
  unfold channelOpen
  rw [hrej]

/-- The per-connection message listener (wss connection handler): dispatch
on the first byte of the received buffer; a sync-tagged message is fed to
readSyncMessage and an awareness-tagged one to applyAwarenessUpdate (either
may throw, in which case the catch block runs removeConnection for the
sender); any other tag only logs a warning (the returned Bool). An empty
buffer has no first byte and also falls through to the warning branch. -/
def messageListener (syncTag awTag : Nat)
    (readSyncMessage applyAwarenessUpdate : WSDoc → List Nat → Option WSDoc)
    (d : WSDoc) (ws : Nat) (msg : List Nat) : WSDoc × Bool :=
  match msg with
  | [] => (d, true)
  | b :: rest =>
      if b == syncTag then
        match readSyncMessage d rest with
        | some d2 => (d2, false)
        | none => (removeConnection d ws, false)
      else if b == awTag then
        match applyAwarenessUpdate d rest with
        | some d2 => (d2, false)
        | none => (removeConnection d ws, false)
      else (d, true)

/-- C10: a received message whose first byte is neither the sync tag nor
the awareness tag only triggers the warning: the room state — document
content, awareness state, connection set — is returned unchanged and the
sending connection is not dropped. -/
theorem unknown_message_type_only_warns (syncTag awTag : Nat)
    (readSyncMessage applyAwarenessUpdate : WSDoc → List Nat → Option WSDoc)
    (d : WSDoc) (ws : Nat) (b : Nat) (rest : List Nat)
    (h1 : b ≠ syncTag) (h2 : b ≠ awTag) :
    messageListener syncTag awTag readSyncMessage applyAwarenessUpdate
      d ws (b :: rest) = (d, true) := by
  unfold messageListener
  simp [h1, h2]

/-- C10 witness: with sync tag 0 and awareness tag 1, a message tagged 5
leaves the room state untouched and only warns. -/
theorem unknown_message_type_only_warns_witness :
    messageListener 0 1 (fun d _ => some d) (fun d _ => some d)
      (freshDoc "r") 1 [5, 9] = (freshDoc "r", true) :=
  unknown_message_type_only_warns 0 1 (fun d _ => some d) (fun d _ => some d)
    (freshDoc "r") 1 5 [9] (by decide) (by decide)

end Unicode
